import Mathlib

/-!
Shallow embedding of `src/osm_mcp_server/server.py` (open-streetmap-mcp).

The repository is an MCP server wrapping OpenStreetMap services.  Every tool
takes scalar parameters, issues HTTP calls through `OSMClient`, and reshapes
the JSON responses.  We embed the pure data-reshaping logic directly and model
each outbound HTTP interaction as an explicit environment (oracle) argument:
the features / responses the upstream services would return.  Python dicts
(which preserve insertion order) are modelled as association lists; values
read with `dict.get` become `Option`; raised exceptions become `Except.error`;
`ctx.report_progress` / `ctx.info` / `ctx.warning` calls are collected into an
explicit event trace.  Latitude / longitude floats are modelled as rationals
except for the bounding-box calculator, whose use of `math.cos` forces a
real-valued model (`bboxOfRadius`).
-/

/-- A coordinates dictionary `{"latitude": ..., "longitude": ...}` whose values
come from `dict.get` and may be absent (`None`). -/
structure Coords where
  latitude : Option ℚ
  longitude : Option ℚ
deriving DecidableEq, Repr

/-- An Overpass element as consumed by the formatters: `element.get("id")`,
`element.get("type")`, `element.get("tags", {})`, `element.get("lat")`,
`element.get("lon")`, and the optional `"center"` member for ways/relations. -/
structure Feature where
  id : Option Nat
  ftype : Option String
  tags : List (String × String)
  lat : Option ℚ
  lon : Option ℚ
  center : Option Coords
deriving DecidableEq, Repr

/-- `m[k] = f (m.get(k, d))` on an insertion-ordered Python dict: update the
value at `k` in place if the key exists, otherwise append a new binding whose
value is `f d`. -/
def alistUpsert {β : Type} (m : List (String × β)) (k : String) (d : β) (f : β → β) :
    List (String × β) :=
  match m with
  | [] => [(k, f d)]
  | kv :: rest => if kv.1 = k then (kv.1, f kv.2) :: rest else kv :: alistUpsert rest k d f

/-- `results_by_category[category][subcategory].append(v)` including the
`if ... not in ...` key-creation steps that precede it in the Python code. -/
def groupAppend {α : Type} (m : List (String × List (String × List α)))
    (cat subcat : String) (v : α) : List (String × List (String × List α)) :=
  alistUpsert m cat [] (fun inner => alistUpsert inner subcat [] (fun l => l ++ [v]))

/-- Read `m[cat][subcat]`, returning `[]` when either key is missing. -/
def lookup2 {α : Type} (m : List (String × List (String × List α))) (cat subcat : String) :
    List α :=
  (((m.lookup cat).getD []).lookup subcat).getD []

/-- `sum(len(places) for category_data in m.values() for places in category_data.values())`,
the aggregate count used by `find_nearby_places` and `explore_area`. -/
def sumLens {α : Type} (m : List (String × List (String × List α))) : Nat :=
  (m.map (fun p => (p.2.map (fun q => q.2.length)).sum)).sum

/-- The `place_info` dict built by `find_nearby_places` (and, with a different
default name, the venue dict built by `suggest_meeting_point`). -/
structure PlaceInfo where
  id : Option Nat
  name : String
  latitude : Option ℚ
  longitude : Option ℚ
  tags : List (String × String)
deriving DecidableEq, Repr

/-- `find_nearby_places`: the `place_info` record for one place. -/
def placeInfoOf (place : Feature) : PlaceInfo :=
  { id := place.id
    name := (place.tags.lookup "name").getD "Unnamed"
    latitude := place.lat
    longitude := place.lon
    tags := place.tags }

/-- Default category list used by `find_nearby_places` (and `get_nearby_pois`). -/
def defaultCategories : List String := ["amenity", "shop", "tourism", "leisure"]

/-- The inner `for category in categories:` loop of `find_nearby_places` for a
single place: for every requested category present in the tags of the place
(there is no `break`), append its `place_info` under `category`/`tags[category]`. -/
def addPlaceCats (categories : List String)
    (acc : List (String × List (String × List PlaceInfo)))
    (place : Feature) : List (String × List (String × List PlaceInfo)) :=
  categories.foldl
    (fun acc2 category =>
      match place.tags.lookup category with
      | some subcategory => groupAppend acc2 category subcategory (placeInfoOf place)
      | none => acc2)
    acc

/-- The grouping loop `for place in places[:limit]:` of `find_nearby_places`. -/
def groupByCategory (categories : List String) (limit : Nat) (places : List Feature) :
    List (String × List (String × List PlaceInfo)) :=
  (places.take limit).foldl (addPlaceCats categories) []

/-- The `query` echo common to `find_nearby_places` and `explore_area`. -/
structure NearbyQuery where
  latitude : ℚ
  longitude : ℚ
  radius : ℚ
deriving DecidableEq, Repr

/-- Return value of `find_nearby_places`. -/
structure FindNearbyResult where
  query : NearbyQuery
  categories : List (String × List (String × List PlaceInfo))
  total_count : Nat
deriving DecidableEq, Repr

/-- Tool `find_nearby_places`.  `places` is the list returned by the
`osm_client.get_nearby_pois` HTTP call (the environment of the run). -/
def find_nearby_places (latitude longitude : ℚ) (radius : ℚ) (categories : List String)
    (limit : Nat) (places : List Feature) : FindNearbyResult :=
  let cats := if categories = [] then defaultCategories else categories
  let results_by_category := groupByCategory cats limit places
  { query := ⟨latitude, longitude, radius⟩
    categories := results_by_category
    total_count := sumLens results_by_category }

/-- Notifications and observable points in a tool run: `ctx.report_progress`,
`ctx.info`, `ctx.warning`, plus a `searched c` marker recording the moment the
feature-search HTTP call for category `c` returned successfully (needed to
state ordering properties of progress notifications relative to searches; it
is not itself a protocol notification, and `progressEvents` ignores it). -/
inductive Event where
  | progress (current : Nat) (total : Nat)
  | info (msg : String)
  | warning (msg : String)
  | searched (category : String)
deriving DecidableEq, Repr

/-- The per-feature dict built inside `explore_area` (`id`, `name`,
`coordinates`, `type`, `tags`). -/
structure ExploreEntry where
  id : Option Nat
  name : String
  coordinates : Option Coords
  etype : Option String
  tags : List (String × String)
deriving DecidableEq, Repr

/-- The `coords` computation shared verbatim by `search_category` and
`explore_area`: a node yields `{"latitude": feature.get("lat"), "longitude":
feature.get("lon")}` (a non-empty, hence truthy, dict even when the values are
`None`); otherwise the precomputed `"center"` member if present; otherwise the
empty dict, modelled as `none`. -/
def coordsOf (feature : Feature) : Option Coords :=
  if feature.ftype = some "node" then some ⟨feature.lat, feature.lon⟩
  else feature.center

/-- `explore_area`: the dict appended under a subcategory for one feature. -/
def exploreEntryOf (feature : Feature) : ExploreEntry :=
  { id := feature.id
    name := (feature.tags.lookup "name").getD "Unnamed"
    coordinates := coordsOf feature
    etype := feature.ftype
    tags := feature.tags }

/-- One iteration of the `for feature in features:` grouping loop of
`explore_area`: `subcategory = tags.get(category)`; the Python truthiness test
`if subcategory:` skips both a missing value and the empty string. -/
def exploreGroupStep (category : String) (subcategories : List (String × List ExploreEntry))
    (feature : Feature) : List (String × List ExploreEntry) :=
  match feature.tags.lookup category with
  | some subcategory =>
    if subcategory ≠ "" then
      alistUpsert subcategories subcategory [] (fun l => l ++ [exploreEntryOf feature])
    else subcategories
  | none => subcategories

/-- The grouping loop of `explore_area` for one category. -/
def groupExplore (category : String) (features : List Feature) :
    List (String × List ExploreEntry) :=
  features.foldl (exploreGroupStep category) []

/-- Environment of one `explore_area` run: what the Overpass feature search
returns (or raises) for each category, what the reverse-geocode call returns
(or raises), and `datetime.now().isoformat()`.  Request shaping -- the bounding
box passed to `search_features_by_category`, computed from the call arguments
exactly as in `bboxOfRadius` below -- is folded into the oracle, since the box
is the same for every category of the run. -/
structure ExploreEnv where
  search : String → Except String (List Feature)
  reverse : Except String (List (String × String))
  now : String

/-- Body of the `try:` block of `explore_area` for one category, together with
the events it emits: on success the grouped subcategories and the `searched`
marker; on an exception the empty dict `{}` and the warning notification. -/
def exploreStep (env : ExploreEnv) (category : String) :
    List (String × List ExploreEntry) × List Event :=
  match env.search category with
  | .ok features => (groupExplore category features, [.searched category])
  | .error e => ([], [.warning ("Error fetching " ++ category ++ " features: " ++ e)])

/-- The `for i, category in enumerate(categories):` loop of `explore_area`:
`results[category] = ...` assignments in order, and the event trace
`report_progress(i, total)`, `info(...)`, then the events of the category body. -/
def exploreLoop (env : ExploreEnv) (total : Nat) :
    List String → Nat → List (String × List (String × List ExploreEntry)) × List Event
  | [], _ => ([], [])
  | category :: rest, i =>
    let step := exploreStep env category
    let recur := exploreLoop env total rest (i + 1)
    ((category, step.1) :: recur.1,
      .progress i total :: .info ("Exploring " ++ category ++ " features...")
        :: (step.2 ++ recur.2))

/-- Return value of `explore_area`. -/
structure ExploreResult where
  query : NearbyQuery
  address : List (String × String)
  categories : List (String × List (String × List ExploreEntry))
  total_features : Nat
  timestamp : String
deriving Repr

/-- The fixed category list hard-coded in `explore_area`. -/
def exploreCategories : List String :=
  ["amenity", "shop", "tourism", "leisure", "natural", "historic", "public_transport"]

/-- Tool `explore_area`: the produced payload and the full event trace,
including the final `report_progress(len(categories), len(categories))`.  The
reverse-geocode failure placeholder is the dict
`{"error": "Could not retrieve address information"}`. -/
def explore_area (env : ExploreEnv) (latitude longitude : ℚ) (radius : ℚ) :
    ExploreResult × List Event :=
  let loop := exploreLoop env exploreCategories.length exploreCategories 0
  let address_info :=
    match env.reverse with
    | .ok a => a
    | .error _ => [("error", "Could not retrieve address information")]
  ({ query := ⟨latitude, longitude, radius⟩
     address := address_info
     categories := loop.1
     total_features := sumLens loop.1
     timestamp := env.now },
   loop.2 ++ [.progress exploreCategories.length exploreCategories.length])

/-- The `current`/`total` pairs of the progress notifications of a trace, in
emission order. -/
def progressEvents (trace : List Event) : List (Nat × Nat) :=
  trace.filterMap fun e =>
    match e with
    | .progress c t => some (c, t)
    | _ => none

/-- An event marking that the handling of one category of `explore_area` has
finished: either its search returned (`searched`) or its failure was recorded
(`warning`). -/
def isCompletion (e : Event) : Bool :=
  match e with
  | .searched _ => true
  | .warning _ => true
  | _ => false

/-- Number of categories whose handling has completed within a trace. -/
def completions (trace : List Event) : Nat := trace.countP isCompletion

/-- The result dict built by `search_category` for one feature
(`id`, `type`, `name`, `coordinates`, `category`, `subcategory`, `tags`). -/
structure SearchEntry where
  id : Option Nat
  etype : Option String
  name : String
  coordinates : Option Coords
  category : String
  subcategory : Option String
  tags : List (String × String)
deriving DecidableEq, Repr

/-- `search_category`: the dict appended for one feature. -/
def searchEntryOf (category : String) (feature : Feature) : SearchEntry :=
  { id := feature.id
    etype := feature.ftype
    name := (feature.tags.lookup "name").getD "Unnamed"
    coordinates := coordsOf feature
    category := category
    subcategory := feature.tags.lookup category
    tags := feature.tags }

/-- The `query` echo of `search_category`. -/
structure SearchQuery where
  category : String
  subcategories : Option (List String)
  min_latitude : ℚ
  min_longitude : ℚ
  max_latitude : ℚ
  max_longitude : ℚ
deriving DecidableEq, Repr

/-- Return value of `search_category`. -/
structure SearchCategoryResult where
  query : SearchQuery
  results : List SearchEntry
  count : Nat
deriving DecidableEq, Repr

/-- Tool `search_category`.  `features` is the list returned by the
`search_features_by_category` HTTP call.  Only features whose `coords` dict is
non-empty (truthy) are appended: `if coords: results.append(...)`. -/
def search_category (category : String) (min_latitude min_longitude : ℚ)
    (max_latitude max_longitude : ℚ) (subcategories : Option (List String))
    (features : List Feature) : SearchCategoryResult :=
  let results := features.foldl
    (fun acc feature =>
      if (coordsOf feature).isSome then acc ++ [searchEntryOf category feature] else acc)
    []
  { query := ⟨category, subcategories, min_latitude, min_longitude, max_latitude, max_longitude⟩
    results := results
    count := results.length }

/-- One entry of the `locations` argument of `suggest_meeting_point`: a dict
read with `loc.get("latitude", 0)` / `loc.get("longitude", 0)`. -/
structure Location where
  latitude : Option ℚ
  longitude : Option ℚ
deriving DecidableEq, Repr

/-- A point with both coordinates present (the computed center). -/
structure Point where
  latitude : ℚ
  longitude : ℚ
deriving DecidableEq, Repr

/-- Environment of a `suggest_meeting_point` run: what the
`osm_client.get_nearby_pois(lat, lon, radius, categories)` HTTP call returns. -/
structure PoiEnv where
  pois : ℚ → ℚ → ℚ → List String → List Feature

/-- Return value of `suggest_meeting_point`. -/
structure MeetingResult where
  center_point : Point
  suggested_venues : List PlaceInfo
  venue_type : String
  total_options : Nat
deriving DecidableEq, Repr

/-- `sum(loc.get("latitude", 0) for loc in locations) / len(locations)`. -/
def avgLat (locations : List Location) : ℚ :=
  (locations.map (fun loc => loc.latitude.getD 0)).sum / locations.length

/-- `sum(loc.get("longitude", 0) for loc in locations) / len(locations)`. -/
def avgLon (locations : List Location) : ℚ :=
  (locations.map (fun loc => loc.longitude.getD 0)).sum / locations.length

/-- The venue-filtering loop of `suggest_meeting_point`: keep the venues whose
`tags.get("amenity") == venue_type`, reshaped with the default name
`"Unnamed Venue"`. -/
def matchingVenues (venue_type : String) (venues : List Feature) : List PlaceInfo :=
  venues.foldl
    (fun acc venue =>
      if venue.tags.lookup "amenity" = some venue_type then
        acc ++ [{ id := venue.id
                  name := (venue.tags.lookup "name").getD "Unnamed Venue"
                  latitude := venue.lat
                  longitude := venue.lon
                  tags := venue.tags }]
      else acc)
    []

/-- Tool `suggest_meeting_point`: fewer than two locations raises `ValueError`;
otherwise search venues at radius 500 around the average point, and if none of
the requested type matches, search again at radius 1000; return the first five
matches. -/
def suggest_meeting_point (env : PoiEnv) (locations : List Location)
    (venue_type : String) : Except String MeetingResult :=
  if locations.length < 2 then
    .error "Need at least two locations to suggest a meeting point"
  else
    let avg_lat := avgLat locations
    let avg_lon := avgLon locations
    let venues := env.pois avg_lat avg_lon 500 ["amenity"]
    let matching := matchingVenues venue_type venues
    let matching2 :=
      if matching = [] then
        matchingVenues venue_type (env.pois avg_lat avg_lon 1000 ["amenity"])
      else matching
    .ok { center_point := ⟨avg_lat, avg_lon⟩
          suggested_venues := matching2.take 5
          venue_type := venue_type
          total_options := matching2.length }

/-- An upstream HTTP response as seen by the `OSMClient` methods: the status
code and the already-parsed body. -/
structure HttpResponse (β : Type) where
  status : Nat
  body : β
deriving DecidableEq, Repr

/-- True exactly on `Except.ok`. -/
def exceptOk {ε α : Type} (x : Except ε α) : Bool :=
  match x with
  | .ok _ => true
  | .error _ => false

/-- Parsed body of an Overpass reply, from which `data.get("elements", [])` is
read. -/
structure OverpassData where
  elements : Option (List Feature)
deriving DecidableEq, Repr

/-- `OSMClient.geocode`: raises `RuntimeError` when not connected, returns the
parsed JSON on status 200, raises on any other status. -/
def OSMClient.geocode {β : Type} (connected : Bool) (query : String)
    (response : HttpResponse β) : Except String β :=
  if connected = false then .error "OSM client not connected"
  else if response.status = 200 then .ok response.body
  else .error ("Failed to geocode \x27" ++ query ++ "\x27: " ++ toString response.status)

/-- `OSMClient.reverse_geocode`. -/
def OSMClient.reverse_geocode {β : Type} (connected : Bool) (lat lon : ℚ)
    (response : HttpResponse β) : Except String β :=
  if connected = false then .error "OSM client not connected"
  else if response.status = 200 then .ok response.body
  else .error ("Failed to reverse geocode (" ++ toString lat ++ ", " ++ toString lon ++ "): "
    ++ toString response.status)

/-- `OSMClient.get_nearby_pois` response handling: `data.get("elements", [])`
on status 200.  (Its request shaping -- the bounding box computed from the
center and radius -- is `bboxOfRadius` below.) -/
def OSMClient.get_nearby_pois (connected : Bool) (response : HttpResponse OverpassData) :
    Except String (List Feature) :=
  if connected = false then .error "OSM client not connected"
  else if response.status = 200 then .ok (response.body.elements.getD [])
  else .error ("Failed to get nearby POIs: " ++ toString response.status)

/-- `OSMClient.search_features_by_category` response handling. -/
def OSMClient.search_features_by_category (connected : Bool)
    (response : HttpResponse OverpassData) : Except String (List Feature) :=
  if connected = false then .error "OSM client not connected"
  else if response.status = 200 then .ok (response.body.elements.getD [])
  else .error ("Failed to search features by category: " ++ toString response.status)

/-- One OSRM step dict: `step.get("maneuver", {})`, `step.get("distance")`,
`step.get("duration")`, `step.get("name", "")`. -/
structure RouteStep where
  maneuver : Option (List (String × String))
  distance : Option ℚ
  duration : Option ℚ
  name : Option String
deriving DecidableEq, Repr

/-- One OSRM leg dict: `leg.get("steps", [])`. -/
structure RouteLeg where
  steps : Option (List RouteStep)
deriving DecidableEq, Repr

/-- One OSRM route dict: `route.get("distance")`, `route.get("duration")`,
the optional `"legs"` member, `route.get("geometry")`. -/
structure RouteInfo where
  distance : Option ℚ
  duration : Option ℚ
  legs : Option (List RouteLeg)
  geometry : Option String
deriving DecidableEq, Repr

/-- The OSRM response body: the optional `"routes"` member and
`route_data.get("waypoints", [])` (waypoints kept opaque). -/
structure RouteData where
  routes : Option (List RouteInfo)
  waypoints : Option (List String)
deriving DecidableEq, Repr

/-- `OSMClient.get_route`: status handling of the OSRM call. -/
def OSMClient.get_route (connected : Bool) (response : HttpResponse RouteData) :
    Except String RouteData :=
  if connected = false then .error "OSM client not connected"
  else if response.status = 200 then .ok response.body
  else .error ("Failed to get route: " ++ toString response.status)

/-- One simplified direction step of `get_route_directions`. -/
structure StepInfo where
  instruction : String
  distance : Option ℚ
  duration : Option ℚ
  name : String
deriving DecidableEq, Repr

/-- `get_route_directions`: extract a step dict into the simplified form
(`step.get("maneuver", {}).get("instruction", "")` etc.). -/
def stepInfoOf (step : RouteStep) : StepInfo :=
  { instruction := ((step.maneuver.getD []).lookup "instruction").getD ""
    distance := step.distance
    duration := step.duration
    name := step.name.getD "" }

/-- The nested step-extraction loops of `get_route_directions`:
`if "legs" in route: for leg in route["legs"]: for step in leg.get("steps", []): ...`. -/
def routeSteps (route : RouteInfo) : List StepInfo :=
  match route.legs with
  | some legs => legs.foldl (fun acc leg => acc ++ (leg.steps.getD []).map stepInfoOf) []
  | none => []

/-- The `summary` member of the `get_route_directions` payload. -/
structure RouteSummary where
  distance : Option ℚ
  duration : Option ℚ
  mode : String
deriving DecidableEq, Repr

/-- Return value of `get_route_directions`. -/
structure DirectionsResult where
  summary : RouteSummary
  directions : List StepInfo
  geometry : Option String
  waypoints : List String
deriving DecidableEq, Repr

/-- Environment of a `get_route_directions` run: the OSRM response for a given
origin, destination and transportation mode. -/
structure RouteEnv where
  route : ℚ → ℚ → ℚ → ℚ → String → HttpResponse RouteData

/-- The valid transportation modes of `get_route_directions`. -/
def validModes : List String := ["car", "bike", "foot"]

/-- Tool `get_route_directions`: an invalid mode is replaced by `"car"` with a
warning; the OSRM call is made through `OSMClient.get_route`; an empty or
missing `routes` member raises `"No route found"`; otherwise the first route is
reshaped.  Returns the result (or the raised error) and the event trace. -/
def get_route_directions (env : RouteEnv)
    (from_latitude from_longitude to_latitude to_longitude : ℚ) (mode : String) :
    Except String DirectionsResult × List Event :=
  let effMode := if mode ∈ validModes then mode else "car"
  let events :=
    (if mode ∈ validModes then []
     else [Event.warning ("Invalid mode \x27" ++ mode ++ "\x27. Using \x27car\x27 instead.")])
    ++ [Event.info ("Calculating " ++ effMode ++ " route from (" ++ toString from_latitude
        ++ ", " ++ toString from_longitude ++ ") to (" ++ toString to_latitude ++ ", "
        ++ toString to_longitude ++ ")")]
  let response := env.route from_latitude from_longitude to_latitude to_longitude effMode
  match OSMClient.get_route true response with
  | .error e => (.error e, events)
  | .ok route_data =>
    match route_data.routes with
    | some (route :: _) =>
      (.ok { summary := ⟨route.distance, route.duration, effMode⟩
             directions := routeSteps route
             geometry := route.geometry
             waypoints := route_data.waypoints.getD [] }, events)
    | _ => (.error "No route found", events)

/-- The bounding box `(min_lon, min_lat, max_lon, max_lat)` built by
`get_nearby_pois` and by `explore_area`. -/
structure BBox where
  min_lon : ℝ
  min_lat : ℝ
  max_lon : ℝ
  max_lat : ℝ

/-- The bounding-box calculation appearing verbatim in
`OSMClient.get_nearby_pois` and in `explore_area`:
`lat_delta = radius / 111000`,
`lon_delta = radius / (111000 * math.cos(math.radians(latitude)))`, with
`math.radians(x) = x * pi / 180`.  Real-valued because of `math.cos`. -/
noncomputable def bboxOfRadius (latitude longitude radius : ℝ) : BBox :=
  let lat_delta := radius / 111000
  let lon_delta := radius / (111000 * Real.cos (latitude * Real.pi / 180))
  { min_lon := longitude - lon_delta
    min_lat := latitude - lat_delta
    max_lon := longitude + lon_delta
    max_lat := latitude + lat_delta }

/-- Claim C1 as stated, formalised for the fixed category list of
`explore_area`: the progress notifications are exactly
`(0, n), ..., (n-1, n), (n, n)` in order, and the notification with
`current = i` is emitted after the search for the i-th category completes
(the bounded existentials are equivalent to unbounded ones because an index
with `trace[s]? = some e` is below `trace.length`).  The stated claim also
demands the notification come before the next category begins; dropping that
extra conjunct only weakens the claim, and the weakened form is refuted. -/
def claimC1Holds (tr : List Event) : Prop :=
  progressEvents tr =
    (List.range exploreCategories.length).map (fun j => (j, exploreCategories.length))
      ++ [(exploreCategories.length, exploreCategories.length)]
  ∧ ∀ j : Fin exploreCategories.length,
      ∃ s, s < tr.length ∧ ∃ p, p < tr.length ∧
        tr[s]? = some (.searched (exploreCategories.get j)) ∧
        tr[p]? = some (.progress j.1 exploreCategories.length) ∧ s < p

instance (tr : List Event) : Decidable (claimC1Holds tr) := by
  unfold claimC1Holds
  infer_instance

/-- An `explore_area` environment in which every category search succeeds with
no features and reverse geocoding succeeds. -/
def envAllOk : ExploreEnv :=
  { search := fun _ => .ok []
    reverse := .ok []
    now := "2026-01-01T00:00:00" }

/-- An `explore_area` environment in which the `"shop"` search raises and all
other searches succeed with no features. -/
def envShopError : ExploreEnv :=
  { search := fun category => if category = "shop" then .error "timeout" else .ok []
    reverse := .ok []
    now := "2026-01-01T00:00:00" }

/-- A way without a precomputed center carrying an `amenity` tag: its `coords`
dict stays empty. -/
def wayNoCenter : Feature :=
  { id := some 11
    ftype := some "way"
    tags := [("amenity", "fountain")]
    lat := none
    lon := none
    center := none }

/-- An `explore_area` environment whose `"amenity"` search returns only
`wayNoCenter`. -/
def envWayOnly : ExploreEnv :=
  { search := fun category => if category = "amenity" then .ok [wayNoCenter] else .ok []
    reverse := .ok []
    now := "2026-01-01T00:00:00" }

/-- A node tagged with both an `amenity` and a `shop` key. -/
def nodeBothTags : Feature :=
  { id := some 7
    ftype := some "node"
    tags := [("amenity", "cafe"), ("shop", "bakery"), ("name", "Corner")]
    lat := some 1
    lon := some 2
    center := none }

/-- A nameless cafe node. -/
def namelessCafe : Feature :=
  { id := some 3
    ftype := some "node"
    tags := [("amenity", "cafe")]
    lat := some 5
    lon := some 6
    center := none }

/-- A `get_nearby_pois` environment returning the nameless cafe at every
radius. -/
def envCafeAlways : PoiEnv :=
  { pois := fun _ _ _ _ => [namelessCafe] }

/-- A `get_nearby_pois` environment returning the nameless cafe only when the
requested radius is 1000. -/
def envCafeAt1000 : PoiEnv :=
  { pois := fun _ _ radius _ => if radius = 1000 then [namelessCafe] else [] }

/-- Two concrete locations for `suggest_meeting_point`. -/
def twoLocations : List Location :=
  [{ latitude := some 0, longitude := some 0 }, { latitude := some 1, longitude := some 1 }]

/-- A concrete routing environment: the OSRM call fails with status 500
whatever the mode. -/
def envRouteDown : RouteEnv :=
  { route := fun _ _ _ _ _ => ⟨500, none, none⟩ }

theorem foldl_preserves {α γ : Type} {P : γ → Prop} (step : γ → α → γ)
    (hstep : ∀ acc x, P acc → P (step acc x)) :
    ∀ (l : List α) (init : γ), P init → P (l.foldl step init) := by
  intro l
  induction l with
  | nil => intro init h; simpa using h
  | cons x rest ih =>
    intro init h
    rw [List.foldl_cons]
    exact ih (step init x) (hstep init x h)

theorem alistUpsert_prop {β : Type} {P : β → Prop} (m : List (String × β)) (k : String)
    (d : β) (f : β → β) (hm : ∀ p ∈ m, P p.2) (hnew : P (f d))
    (hpres : ∀ v, P v → P (f v)) : ∀ p ∈ alistUpsert m k d f, P p.2 := by
  induction m with
  | nil =>
    intro p hp
    simp only [alistUpsert, List.mem_singleton] at hp
    subst hp
    exact hnew
  | cons kv rest ih =>
    intro p hp
    by_cases hk : kv.1 = k
    · simp only [alistUpsert, if_pos hk] at hp
      rcases List.mem_cons.mp hp with h | h
      · subst h
        exact hpres _ (hm kv (List.mem_cons_self _ _))
      · exact hm p (List.mem_cons_of_mem _ h)
    · simp only [alistUpsert, if_neg hk] at hp
      rcases List.mem_cons.mp hp with h | h
      · subst h
        exact hm p (List.mem_cons_self _ _)
      · exact ih (fun q hq => hm q (List.mem_cons_of_mem _ hq)) p h

theorem alistUpsert_ne_nil {β : Type} (m : List (String × β)) (k : String) (d : β)
    (f : β → β) : alistUpsert m k d f ≠ [] := by
  cases m with
  | nil => simp [alistUpsert]
  | cons kv rest => by_cases h : kv.1 = k <;> simp [alistUpsert, h]

theorem lookup_alistUpsert_eq {β : Type} (k : String) (d : β) (f : β → β) :
    ∀ (m : List (String × β)),
      (alistUpsert m k d f).lookup k = some (f ((m.lookup k).getD d)) := by
  intro m
  induction m with
  | nil => simp [alistUpsert, List.lookup]
  | cons kv rest ih =>
    obtain ⟨k1, v1⟩ := kv
    by_cases h : k1 = k
    · subst h
      simp [alistUpsert, List.lookup]
    · have hne : (k == k1) = false := by
        simp [beq_eq_false_iff_ne]
        exact fun hh => h hh.symm
      simp [alistUpsert, h, List.lookup, hne, ih]

theorem lookup_alistUpsert_ne {β : Type} (k k2 : String) (d : β) (f : β → β)
    (hne : k2 ≠ k) :
    ∀ (m : List (String × β)), (alistUpsert m k d f).lookup k2 = m.lookup k2 := by
  intro m
  induction m with
  | nil =>
    have : (k2 == k) = false := by simpa [beq_eq_false_iff_ne] using hne
    simp [alistUpsert, List.lookup, this]
  | cons kv rest ih =>
    obtain ⟨k1, v1⟩ := kv
    by_cases h : k1 = k
    · subst h
      have hb : (k2 == k1) = false := by simpa [beq_eq_false_iff_ne] using hne
      simp [alistUpsert, List.lookup, hb]
    · simp [alistUpsert, h, List.lookup, ih]

theorem groupAppend_good {α : Type} (m : List (String × List (String × List α)))
    (cat subcat : String) (v : α)
    (hm : ∀ p ∈ m, p.2 ≠ [] ∧ ∀ q ∈ p.2, q.2 ≠ []) :
    ∀ p ∈ groupAppend m cat subcat v, p.2 ≠ [] ∧ ∀ q ∈ p.2, q.2 ≠ [] := by
  unfold groupAppend
  apply alistUpsert_prop (P := fun inner => inner ≠ [] ∧ ∀ q ∈ inner, q.2 ≠ []) m cat [] _ hm
  · refine ⟨alistUpsert_ne_nil _ _ _ _, ?_⟩
    apply alistUpsert_prop (P := fun l => l ≠ []) [] subcat [] _ (by simp)
    · simp
    · intro w _
      simp
  · intro inner hinner
    refine ⟨alistUpsert_ne_nil _ _ _ _, ?_⟩
    apply alistUpsert_prop (P := fun l => l ≠ []) inner subcat [] _ hinner.2
    · simp
    · intro w _
      simp

theorem addPlaceCats_good (categories : List String)
    (acc : List (String × List (String × List PlaceInfo))) (place : Feature)
    (hacc : ∀ p ∈ acc, p.2 ≠ [] ∧ ∀ q ∈ p.2, q.2 ≠ []) :
    ∀ p ∈ addPlaceCats categories acc place, p.2 ≠ [] ∧ ∀ q ∈ p.2, q.2 ≠ [] := by
  unfold addPlaceCats
  apply foldl_preserves
    (P := fun m => ∀ p ∈ m, p.2 ≠ [] ∧ ∀ q ∈ p.2, q.2 ≠ []) _ _ categories acc hacc
  intro acc2 category hacc2
  cases hl : place.tags.lookup category with
  | none => simpa [hl] using hacc2
  | some subcategory => simpa [hl] using groupAppend_good acc2 category subcategory _ hacc2

/-- C4: for every input to `find_nearby_places`, every category entry of the
output maps to a non-empty subcategory dict all of whose lists are non-empty,
and `total_count` is the sum of the lengths of all subcategory lists of the
output. -/
theorem find_nearby_places_invariants (latitude longitude radius : ℚ)
    (categories : List String) (limit : Nat) (places : List Feature) :
    (∀ p ∈ (find_nearby_places latitude longitude radius categories limit places).categories,
        p.2 ≠ [] ∧ ∀ q ∈ p.2, q.2 ≠ []) ∧
    (find_nearby_places latitude longitude radius categories limit places).total_count =
      (((find_nearby_places latitude longitude radius categories limit places).categories.map
          (fun p => p.2.map (fun q => q.2.length))).flatten).sum := by
  constructor
  · intro p hp
    refine foldl_preserves (P := fun m => ∀ p ∈ m, p.2 ≠ [] ∧ ∀ q ∈ p.2, q.2 ≠ [])
      _ ?_ _ [] (by simp) p hp
    intro acc x hacc
    exact addPlaceCats_good _ acc x hacc
  · simp only [find_nearby_places, sumLens, List.sum_flatten, List.map_map]
    rfl

/-- Witness for C4 at a concrete input. -/
theorem find_nearby_places_invariants_witness :
    (∀ p ∈ (find_nearby_places 0 0 1000 ["amenity"] 20 [namelessCafe]).categories,
        p.2 ≠ [] ∧ ∀ q ∈ p.2, q.2 ≠ []) ∧
    (find_nearby_places 0 0 1000 ["amenity"] 20 [namelessCafe]).total_count =
      (((find_nearby_places 0 0 1000 ["amenity"] 20 [namelessCafe]).categories.map
          (fun p => p.2.map (fun q => q.2.length))).flatten).sum :=
  find_nearby_places_invariants 0 0 1000 ["amenity"] 20 [namelessCafe]

theorem mem_lookup_alistUpsert_self {α : Type} (m : List (String × List α)) (s : String)
    (v : α) : v ∈ ((alistUpsert m s [] (fun l => l ++ [v])).lookup s).getD [] := by
  rw [lookup_alistUpsert_eq]
  simp

theorem mem_lookup_alistUpsert_mono {α : Type} (m : List (String × List α))
    (s s2 : String) (w v : α) (h : v ∈ (m.lookup s).getD []) :
    v ∈ ((alistUpsert m s2 [] (fun l => l ++ [w])).lookup s).getD [] := by
  by_cases hs : s = s2
  · subst hs
    rw [lookup_alistUpsert_eq]
    simp only [Option.getD_some, List.mem_append]
    exact Or.inl h
  · rw [lookup_alistUpsert_ne _ _ _ _ hs]
    exact h

theorem mem_lookup2_groupAppend_self {α : Type}
    (m : List (String × List (String × List α))) (cat subcat : String) (v : α) :
    v ∈ lookup2 (groupAppend m cat subcat v) cat subcat := by
  unfold lookup2 groupAppend
  rw [lookup_alistUpsert_eq]
  simpa only [Option.getD_some] using mem_lookup_alistUpsert_self ((m.lookup cat).getD []) subcat v

theorem mem_lookup2_groupAppend_mono {α : Type}
    (m : List (String × List (String × List α))) (cat subcat cat2 subcat2 : String)
    (v w : α) (h : v ∈ lookup2 m cat subcat) :
    v ∈ lookup2 (groupAppend m cat2 subcat2 w) cat subcat := by
  unfold lookup2 at h ⊢
  unfold groupAppend
  by_cases hc : cat = cat2
  · subst hc
    rw [lookup_alistUpsert_eq]
    simpa only [Option.getD_some] using
      mem_lookup_alistUpsert_mono ((m.lookup cat).getD []) subcat subcat2 w v h
  · rw [lookup_alistUpsert_ne _ _ _ _ hc]
    exact h

theorem mem_addPlaceCats_mono (categories : List String)
    (acc : List (String × List (String × List PlaceInfo))) (place : Feature)
    (cat subcat : String) (v : PlaceInfo) (h : v ∈ lookup2 acc cat subcat) :
    v ∈ lookup2 (addPlaceCats categories acc place) cat subcat := by
  unfold addPlaceCats
  refine foldl_preserves (P := fun m => v ∈ lookup2 m cat subcat) _ ?_ categories acc h
  intro acc2 category hacc2
  cases hl : place.tags.lookup category with
  | none => simpa [hl] using hacc2
  | some sc => simpa [hl] using mem_lookup2_groupAppend_mono acc2 cat subcat category sc v _ hacc2

theorem mem_addPlaceCats_adds (categories : List String) (place : Feature)
    (cat subcat : String) (hcat : cat ∈ categories)
    (htag : place.tags.lookup cat = some subcat) :
    ∀ acc, placeInfoOf place ∈ lookup2 (addPlaceCats categories acc place) cat subcat := by
  induction categories with
  | nil => simp at hcat
  | cons c rest ih =>
    intro acc
    rcases List.mem_cons.mp hcat with hc | hc
    · subst hc
      have hstep : addPlaceCats (cat :: rest) acc place
          = addPlaceCats rest (groupAppend acc cat subcat (placeInfoOf place)) place := by
        simp [addPlaceCats, htag]
      rw [hstep]
      exact mem_addPlaceCats_mono rest _ place cat subcat _
        (mem_lookup2_groupAppend_self acc cat subcat _)
    · cases hl : place.tags.lookup c with
      | none =>
        have hstep : addPlaceCats (c :: rest) acc place = addPlaceCats rest acc place := by
          simp [addPlaceCats, hl]
        rw [hstep]
        exact ih hc acc
      | some sc =>
        have hstep : addPlaceCats (c :: rest) acc place
            = addPlaceCats rest (groupAppend acc c sc (placeInfoOf place)) place := by
          simp [addPlaceCats, hl]
        rw [hstep]
        exact ih hc _

theorem mem_foldl_addPlaceCats (categories : List String) (place : Feature)
    (cat subcat : String) (hcat : cat ∈ categories)
    (htag : place.tags.lookup cat = some subcat) :
    ∀ (l : List Feature) (acc), place ∈ l →
      placeInfoOf place ∈ lookup2 (l.foldl (addPlaceCats categories) acc) cat subcat := by
  intro l
  induction l with
  | nil =>
    intro acc h
    simp at h
  | cons x rest ih =>
    intro acc h
    rcases List.mem_cons.mp h with hx | hx
    · subst hx
      rw [List.foldl_cons]
      refine foldl_preserves (P := fun m => placeInfoOf place ∈ lookup2 m cat subcat)
        _ ?_ rest _ (mem_addPlaceCats_adds categories place cat subcat hcat htag acc)
      intro acc2 y hacc2
      exact mem_addPlaceCats_mono categories acc2 y cat subcat _ hacc2
    · rw [List.foldl_cons]
      exact ih _ hx

/-- C5 counterexample: `nodeBothTags` carries both an `amenity` and a `shop`
tag; with requested categories `["amenity", "shop"]` the first matching
category is `"amenity"`, yet the place is also grouped under the later
matching category `"shop"` (the inner loop of `find_nearby_places` has no
`break`), refuting grouping under exactly the first matching category. -/
theorem find_nearby_places_multi_group :
    placeInfoOf nodeBothTags ∈
      lookup2 (find_nearby_places 0 0 1000 ["amenity", "shop"] 20 [nodeBothTags]).categories
        "amenity" "cafe" ∧
    placeInfoOf nodeBothTags ∈
      lookup2 (find_nearby_places 0 0 1000 ["amenity", "shop"] 20 [nodeBothTags]).categories
        "shop" "bakery" := by
  constructor <;> decide

/-- C5 (amended): a place within the limit whose tags match a requested
category is grouped under every matching category of the requested list, in
particular under each of them, not only the first. -/
theorem find_nearby_places_groups_under_every_match (latitude longitude radius : ℚ)
    (categories : List String) (limit : Nat) (places : List Feature) (place : Feature)
    (cat subcat : String) (hne : categories ≠ []) (hp : place ∈ places.take limit)
    (hcat : cat ∈ categories) (htag : place.tags.lookup cat = some subcat) :
    placeInfoOf place ∈
      lookup2 (find_nearby_places latitude longitude radius categories limit places).categories
        cat subcat := by
  unfold find_nearby_places groupByCategory
  simp only [if_neg hne]
  exact mem_foldl_addPlaceCats categories place cat subcat hcat htag _ [] hp

/-- Witness for the amended C5 at a concrete input. -/
theorem find_nearby_places_groups_under_every_match_witness :
    (["amenity", "shop"] : List String) ≠ [] ∧
    nodeBothTags ∈ [nodeBothTags].take 20 ∧
    "shop" ∈ ["amenity", "shop"] ∧
    nodeBothTags.tags.lookup "shop" = some "bakery" ∧
    placeInfoOf nodeBothTags ∈
      lookup2 (find_nearby_places 0 0 1000 ["amenity", "shop"] 20 [nodeBothTags]).categories
        "shop" "bakery" :=
  ⟨by decide, by decide, by decide, by decide,
    find_nearby_places_groups_under_every_match 0 0 1000 ["amenity", "shop"] 20 [nodeBothTags]
      nodeBothTags "shop" "bakery" (by decide) (by decide) (by decide) (by decide)⟩

theorem progressEvents_exploreStep (env : ExploreEnv) (c : String) :
    progressEvents (exploreStep env c).2 = [] := by
  unfold exploreStep
  cases env.search c <;> simp [progressEvents]

theorem progressEvents_append (t1 t2 : List Event) :
    progressEvents (t1 ++ t2) = progressEvents t1 ++ progressEvents t2 := by
  simp [progressEvents]

theorem progressEvents_exploreLoop (env : ExploreEnv) (total : Nat) :
    ∀ (cats : List String) (i : Nat),
      progressEvents (exploreLoop env total cats i).2 =
        (List.range' i cats.length).map (fun j => (j, total)) := by
  intro cats
  induction cats with
  | nil =>
    intro i
    simp [exploreLoop, progressEvents]
  | cons c rest ih =>
    intro i
    simp only [exploreLoop, List.length_cons, List.range'_succ, List.map_cons]
    rw [show progressEvents (.progress i total :: .info ("Exploring " ++ c ++ " features...")
        :: ((exploreStep env c).2 ++ (exploreLoop env total rest (i + 1)).2))
      = (i, total) :: progressEvents ((exploreStep env c).2 ++ (exploreLoop env total rest (i + 1)).2)
      from rfl]
    rw [progressEvents_append, progressEvents_exploreStep, ih (i + 1)]
    simp

theorem exploreStep_events (env : ExploreEnv) (c : String) :
    ∃ e, (exploreStep env c).2 = [e] ∧ isCompletion e = true := by
  unfold exploreStep
  cases env.search c with
  | ok features => exact ⟨_, rfl, rfl⟩
  | error e => exact ⟨_, rfl, rfl⟩

theorem completions_append (t1 t2 : List Event) :
    completions (t1 ++ t2) = completions t1 + completions t2 := by
  simp [completions, List.countP_append]

theorem completions_exploreStep (env : ExploreEnv) (c : String) :
    completions (exploreStep env c).2 = 1 := by
  obtain ⟨e, he, hc⟩ := exploreStep_events env c
  simp [he, completions, List.countP_cons, hc]

theorem completions_exploreLoop (env : ExploreEnv) (total : Nat) :
    ∀ (cats : List String) (i : Nat),
      completions (exploreLoop env total cats i).2 = cats.length := by
  intro cats
  induction cats with
  | nil =>
    intro i
    simp [exploreLoop, completions]
  | cons c rest ih =>
    intro i
    simp only [exploreLoop]
    rw [show completions (.progress i total :: .info ("Exploring " ++ c ++ " features...")
        :: ((exploreStep env c).2 ++ (exploreLoop env total rest (i + 1)).2))
      = completions ((exploreStep env c).2 ++ (exploreLoop env total rest (i + 1)).2)
      from by simp [completions, List.countP_cons, isCompletion]]
    rw [completions_append, completions_exploreStep, ih (i + 1)]
    simp [Nat.add_comm]

theorem getElem?_cons_three (a b c : Event) (t : List Event) (n : Nat) :
    (a :: b :: c :: t)[n + 3]? = t[n]? := by
  simp [List.getElem?_cons_succ]

theorem take_cons_three (a b c : Event) (t : List Event) (n : Nat) :
    (a :: b :: c :: t).take (n + 3) = a :: b :: c :: t.take n := rfl

theorem exploreLoop_progress_position (env : ExploreEnv) (total : Nat) :
    ∀ (cats : List String) (i j : Nat), j < cats.length →
      ∃ p, ((exploreLoop env total cats i).2)[p]? = some (.progress (i + j) total) ∧
        completions (((exploreLoop env total cats i).2).take p) = j := by
  intro cats
  induction cats with
  | nil =>
    intro i j h
    simp at h
  | cons c rest ih =>
    intro i j h
    cases j with
    | zero =>
      refine ⟨0, ?_, ?_⟩
      · simp [exploreLoop]
      · simp [completions]
    | succ j =>
      obtain ⟨e, he, hcomp⟩ := exploreStep_events env c
      obtain ⟨p, hp1, hp2⟩ := ih (i + 1) j (by simpa using h)
      refine ⟨p + 3, ?_, ?_⟩
      · simp only [exploreLoop, he, List.singleton_append]
        rw [getElem?_cons_three]
        rw [hp1]
        rw [show i + (j + 1) = i + 1 + j from by omega]
      · simp only [exploreLoop, he, List.singleton_append]
        rw [take_cons_three]
        have hsplit : completions (Event.progress i total
              :: Event.info ("Exploring " ++ c ++ " features...")
              :: e :: (exploreLoop env total rest (i + 1)).2.take p)
            = completions ((exploreLoop env total rest (i + 1)).2.take p) + 1 := by
          have h1 : isCompletion (Event.progress i total) = false := rfl
          have h2 : isCompletion (Event.info ("Exploring " ++ c ++ " features...")) = false := rfl
          simp [completions, List.countP_cons, hcomp, h1, h2]
        rw [hsplit, hp2]

/-- C1 (amended): in every run of `explore_area`, the progress notifications
are exactly `(0, 7), ..., (6, 7)` followed by `(7, 7)`, in order; the
notification with `current = j < 7` is emitted at a point where exactly `j`
category searches have completed -- that is, after the previous category
completes and before the corresponding category's own search, not after it --
and the final `(7, 7)` is emitted after all seven categories have completed. -/
theorem explore_area_progress_trace (env : ExploreEnv) (latitude longitude radius : ℚ) :
    progressEvents (explore_area env latitude longitude radius).2 =
      ((List.range 7).map (fun j => (j, 7))) ++ [(7, 7)] ∧
    (∀ j, j < 7 →
      ∃ p, ((explore_area env latitude longitude radius).2)[p]? = some (.progress j 7) ∧
        completions (((explore_area env latitude longitude radius).2).take p) = j) ∧
    (∃ p, ((explore_area env latitude longitude radius).2)[p]? = some (.progress 7 7) ∧
      completions (((explore_area env latitude longitude radius).2).take p) = 7) := by
  have htrace : (explore_area env latitude longitude radius).2
      = (exploreLoop env 7 exploreCategories 0).2 ++ [.progress 7 7] := rfl
  refine ⟨?_, ?_, ?_⟩
  · rw [htrace, progressEvents_append, progressEvents_exploreLoop]
    rw [show progressEvents [Event.progress 7 7] = [(7, 7)] from rfl]
    rw [List.range_eq_range']
    rfl
  · intro j hj
    obtain ⟨p, hp1, hp2⟩ :=
      exploreLoop_progress_position env 7 exploreCategories 0 j (by simpa using hj)
    have hlt : p < (exploreLoop env 7 exploreCategories 0).2.length :=
      (List.getElem?_eq_some.mp hp1).1
    refine ⟨p, ?_, ?_⟩
    · rw [htrace, List.getElem?_append, if_pos hlt]
      simpa using hp1
    · rw [htrace, List.take_append_of_le_length (le_of_lt hlt)]
      exact hp2
  · refine ⟨(exploreLoop env 7 exploreCategories 0).2.length, ?_, ?_⟩
    · rw [htrace]
      exact List.getElem?_concat_length _ _
    · rw [htrace, List.take_left]
      exact completions_exploreLoop env 7 exploreCategories 0

/-- Witness for the amended C1: the (0, 7) notification of a concrete run is
emitted before any category search completes. -/
theorem explore_area_progress_trace_witness :
    ∃ p, ((explore_area envAllOk 0 0 500).2)[p]? = some (.progress 0 7) ∧
      completions (((explore_area envAllOk 0 0 500).2).take p) = 0 :=
  (explore_area_progress_trace envAllOk 0 0 500).2.1 0 (by norm_num)

/-- C1 counterexample: in the run of `explore_area` in which every category
search succeeds, no progress notification with `current = j` is emitted after
the search for the j-th category completes (it is emitted before that search),
so the claim as stated is false. -/
theorem explore_area_claimC1_false : ¬ claimC1Holds (explore_area envAllOk 0 0 500).2 := by
  decide

theorem exploreLoop_results (env : ExploreEnv) (total : Nat) :
    ∀ (cats : List String) (i : Nat),
      (exploreLoop env total cats i).1 = cats.map (fun c => (c, (exploreStep env c).1)) := by
  intro cats
  induction cats with
  | nil =>
    intro i
    simp [exploreLoop]
  | cons c rest ih =>
    intro i
    simp [exploreLoop, ih]

theorem lookup_map_pairs {β : Type} (f : String → β) :
    ∀ (l : List String) (c : String), c ∈ l →
      (l.map (fun x => (x, f x))).lookup c = some (f c) := by
  intro l
  induction l with
  | nil =>
    intro c h
    simp at h
  | cons x rest ih =>
    intro c h
    by_cases hc : c = x
    · subst hc
      simp [List.lookup]
    · have hb : (c == x) = false := by simpa [beq_eq_false_iff_ne] using hc
      rcases List.mem_cons.mp h with h1 | h1
      · exact absurd h1 hc
      · simp [List.lookup, hb, ih c h1]

theorem warning_mem_exploreLoop (env : ExploreEnv) (total : Nat) (c e : String)
    (he : env.search c = .error e) :
    ∀ (cats : List String) (i : Nat), c ∈ cats →
      Event.warning ("Error fetching " ++ c ++ " features: " ++ e)
        ∈ (exploreLoop env total cats i).2 := by
  intro cats
  induction cats with
  | nil =>
    intro i h
    simp at h
  | cons x rest ih =>
    intro i h
    rcases List.mem_cons.mp h with h1 | h1
    · subst h1
      simp [exploreLoop, exploreStep, he]
    · simp only [exploreLoop, List.mem_cons, List.mem_append]
      exact Or.inr (Or.inr (Or.inr (ih (i + 1) h1)))

/-- C2: if the feature search of one category of `explore_area` raises, the
run still completes -- the model is a total function whose trace ends with the
final progress notification -- the output has an entry for every one of the
seven categories in order, the failing category maps to the empty dict, and
the error surfaces only as a warning notification. -/
theorem explore_area_error_isolated (env : ExploreEnv) (latitude longitude radius : ℚ)
    (c e : String) (hc : c ∈ exploreCategories) (he : env.search c = .error e) :
    (explore_area env latitude longitude radius).1.categories.map Prod.fst
        = exploreCategories ∧
    (explore_area env latitude longitude radius).1.categories.lookup c = some [] ∧
    Event.warning ("Error fetching " ++ c ++ " features: " ++ e)
      ∈ (explore_area env latitude longitude radius).2 ∧
    ((explore_area env latitude longitude radius).2).getLast?
      = some (.progress 7 7) := by
  have hcats : (explore_area env latitude longitude radius).1.categories
      = (exploreLoop env 7 exploreCategories 0).1 := rfl
  have htrace : (explore_area env latitude longitude radius).2
      = (exploreLoop env 7 exploreCategories 0).2 ++ [.progress 7 7] := rfl
  refine ⟨?_, ?_, ?_, ?_⟩
  · have hid : (Prod.fst ∘ fun c : String => (c, (exploreStep env c).1)) = id := rfl
    rw [hcats, exploreLoop_results, List.map_map, hid, List.map_id]
  · rw [hcats, exploreLoop_results, lookup_map_pairs _ _ c hc]
    simp [exploreStep, he]
  · rw [htrace]
    exact List.mem_append_left _ (warning_mem_exploreLoop env 7 c e he exploreCategories 0 hc)
  · rw [htrace]
    simp

/-- Witness for C2 at a concrete environment whose `"shop"` search raises. -/
theorem explore_area_error_isolated_witness :
    "shop" ∈ exploreCategories ∧
    envShopError.search "shop" = .error "timeout" ∧
    (explore_area envShopError 0 0 500).1.categories.map Prod.fst = exploreCategories ∧
    (explore_area envShopError 0 0 500).1.categories.lookup "shop" = some [] ∧
    Event.warning ("Error fetching " ++ "shop" ++ " features: " ++ "timeout")
      ∈ (explore_area envShopError 0 0 500).2 ∧
    ((explore_area envShopError 0 0 500).2).getLast? = some (.progress 7 7) := by
  have h := explore_area_error_isolated envShopError 0 0 500 "shop" "timeout"
    (by decide) (by rfl)
  exact ⟨by decide, by rfl, h.1, h.2.1, h.2.2.1, h.2.2.2⟩

theorem mem_exploreGroupStep_mono (category : String)
    (m : List (String × List ExploreEntry)) (feature : Feature) (s : String)
    (x : ExploreEntry) (h : x ∈ (m.lookup s).getD []) :
    x ∈ ((exploreGroupStep category m feature).lookup s).getD [] := by
  unfold exploreGroupStep
  cases hl : feature.tags.lookup category with
  | none => simpa using h
  | some sc =>
    by_cases hsc : sc ≠ ""
    · simpa [hsc] using mem_lookup_alistUpsert_mono m s sc _ x h
    · simpa [hsc] using h

theorem mem_exploreGroupStep_adds (category : String)
    (m : List (String × List ExploreEntry)) (feature : Feature) (subcat : String)
    (htag : feature.tags.lookup category = some subcat) (hne : subcat ≠ "") :
    exploreEntryOf feature ∈ ((exploreGroupStep category m feature).lookup subcat).getD [] := by
  unfold exploreGroupStep
  rw [htag]
  simpa [hne] using mem_lookup_alistUpsert_self m subcat (exploreEntryOf feature)

theorem mem_foldl_exploreGroupStep (category : String) (feature : Feature) (subcat : String)
    (htag : feature.tags.lookup category = some subcat) (hne : subcat ≠ "") :
    ∀ (l : List Feature) (acc : List (String × List ExploreEntry)), feature ∈ l →
      exploreEntryOf feature
        ∈ ((l.foldl (exploreGroupStep category) acc).lookup subcat).getD [] := by
  intro l
  induction l with
  | nil =>
    intro acc h
    simp at h
  | cons x rest ih =>
    intro acc h
    rcases List.mem_cons.mp h with hx | hx
    · subst hx
      rw [List.foldl_cons]
      refine foldl_preserves
        (P := fun m : List (String × List ExploreEntry) =>
          exploreEntryOf feature ∈ (m.lookup subcat).getD []) _ ?_ rest _
        (mem_exploreGroupStep_adds category acc feature subcat htag hne)
      intro acc2 y hacc2
      exact mem_exploreGroupStep_mono category acc2 y subcat _ hacc2
    · rw [List.foldl_cons]
      exact ih _ hx

/-- C6 counterexample: in a concrete `explore_area` run, the way `wayNoCenter`
(not a node, no precomputed center) is not omitted: it appears in the output
with an empty `coordinates` mapping, refuting the claim for the `explore_area`
formatter. -/
theorem explore_area_empty_coords_entry :
    exploreEntryOf wayNoCenter
      ∈ lookup2 (explore_area envWayOnly 0 0 500).1.categories "amenity" "fountain" ∧
    (exploreEntryOf wayNoCenter).coordinates = none := by
  constructor <;> decide

/-- C6 (amended): `search_category` silently omits a feature whose `coords`
dict is empty, so all of its output entries carry coordinates; `explore_area`
however performs no such filtering: every feature of a successful category
search with a truthy subcategory tag is included -- its `coordinates` member
being `coordsOf`, which is empty for a non-node without a center. -/
theorem coords_filtering (category : String) (min_latitude min_longitude : ℚ)
    (max_latitude max_longitude : ℚ) (subcategories : Option (List String))
    (features : List Feature) (env : ExploreEnv) (latitude longitude radius : ℚ)
    (cat sub : String) (f : Feature) (efs : List Feature)
    (hc : cat ∈ exploreCategories) (hok : env.search cat = .ok efs) (hf : f ∈ efs)
    (htag : f.tags.lookup cat = some sub) (hne : sub ≠ "") :
    (∀ entry ∈ (search_category category min_latitude min_longitude max_latitude
        max_longitude subcategories features).results, entry.coordinates.isSome = true) ∧
    exploreEntryOf f ∈ lookup2 (explore_area env latitude longitude radius).1.categories
      cat sub ∧
    (exploreEntryOf f).coordinates = coordsOf f := by
  refine ⟨?_, ?_, rfl⟩
  · intro entry hentry
    refine foldl_preserves (P := fun acc => ∀ e ∈ acc, e.coordinates.isSome = true)
      _ ?_ features [] (by simp) entry hentry
    intro acc g hacc
    by_cases hco : (coordsOf g).isSome
    · intro e he
      rw [if_pos hco] at he
      rcases List.mem_append.mp he with h1 | h1
      · exact hacc e h1
      · rw [List.mem_singleton.mp h1]
        simpa [searchEntryOf] using hco
    · intro e he
      rw [if_neg hco] at he
      exact hacc e he
  · have hcats : (explore_area env latitude longitude radius).1.categories
        = (exploreLoop env 7 exploreCategories 0).1 := rfl
    unfold lookup2
    rw [hcats, exploreLoop_results, lookup_map_pairs _ _ cat hc]
    rw [show (exploreStep env cat).1 = groupExplore cat efs from by simp [exploreStep, hok]]
    simp only [Option.getD_some]
    exact mem_foldl_exploreGroupStep cat f sub htag hne efs [] hf

/-- Witness for the amended C6 at concrete inputs. -/
theorem coords_filtering_witness :
    "amenity" ∈ exploreCategories ∧
    envWayOnly.search "amenity" = .ok [wayNoCenter] ∧
    wayNoCenter ∈ [wayNoCenter] ∧
    wayNoCenter.tags.lookup "amenity" = some "fountain" ∧
    "fountain" ≠ "" ∧
    ((∀ entry ∈ (search_category "amenity" 0 0 1 1 none [wayNoCenter]).results,
        entry.coordinates.isSome = true) ∧
      exploreEntryOf wayNoCenter
        ∈ lookup2 (explore_area envWayOnly 0 0 500).1.categories "amenity" "fountain" ∧
      (exploreEntryOf wayNoCenter).coordinates = coordsOf wayNoCenter) :=
  ⟨by decide, by rfl, by decide, by decide, by decide,
    coords_filtering "amenity" 0 0 1 1 none [wayNoCenter] envWayOnly 0 0 500
      "amenity" "fountain" wayNoCenter [wayNoCenter]
      (by decide) (by rfl) (by decide) (by decide) (by decide)⟩

/-- C7: with at least two locations, when no venue of the requested type
matches at the 500 m radius, the search is repeated at 1000 m (the returned
`total_options` counts exactly the 1000 m matches), and when at least one
venue matches there the returned `suggested_venues` list is non-empty. -/
theorem suggest_meeting_point_expands (env : PoiEnv) (locations : List Location)
    (venue_type : String) (h2 : 2 ≤ locations.length)
    (h500 : matchingVenues venue_type
      (env.pois (avgLat locations) (avgLon locations) 500 ["amenity"]) = [])
    (h1000 : matchingVenues venue_type
      (env.pois (avgLat locations) (avgLon locations) 1000 ["amenity"]) ≠ []) :
    ∃ r, suggest_meeting_point env locations venue_type = .ok r ∧
      r.suggested_venues ≠ [] ∧
      r.total_options = (matchingVenues venue_type
        (env.pois (avgLat locations) (avgLon locations) 1000 ["amenity"])).length := by
  unfold suggest_meeting_point
  rw [if_neg (by omega)]
  simp only [h500, if_pos rfl]
  refine ⟨_, rfl, ?_, rfl⟩
  simp only [ne_eq, List.take_eq_nil_iff]
  push_neg
  exact ⟨by norm_num, h1000⟩

/-- Witness for C7: no cafe within 500 m of the center of the two locations,
one cafe within 1000 m. -/
theorem suggest_meeting_point_expands_witness :
    2 ≤ twoLocations.length ∧
    matchingVenues "cafe"
      (envCafeAt1000.pois (avgLat twoLocations) (avgLon twoLocations) 500 ["amenity"]) = [] ∧
    matchingVenues "cafe"
      (envCafeAt1000.pois (avgLat twoLocations) (avgLon twoLocations) 1000 ["amenity"]) ≠ [] ∧
    (∃ r, suggest_meeting_point envCafeAt1000 twoLocations "cafe" = .ok r ∧
      r.suggested_venues ≠ [] ∧
      r.total_options = (matchingVenues "cafe"
        (envCafeAt1000.pois (avgLat twoLocations) (avgLon twoLocations) 1000 ["amenity"])).length) :=
  ⟨by decide, by decide, by decide,
    suggest_meeting_point_expands envCafeAt1000 twoLocations "cafe"
      (by decide) (by decide) (by decide)⟩

/-- C8 counterexample: in a concrete `suggest_meeting_point` run the nameless
cafe is returned with the default name `"Unnamed Venue"`, not the literal
`"Unnamed"` the claim asserts for every tool. -/
theorem suggest_meeting_point_unnamed_venue :
    (suggest_meeting_point envCafeAlways twoLocations "cafe").map
        (fun r => r.suggested_venues.map PlaceInfo.name) = .ok ["Unnamed Venue"] ∧
    "Unnamed Venue" ≠ "Unnamed" := by
  exact ⟨by rfl, by decide⟩

/-- C8 (amended): a feature whose tags lack a `name` key is given the literal
default `"Unnamed"` by `find_nearby_places`, `search_category` and
`explore_area`, but `suggest_meeting_point` uses the literal
`"Unnamed Venue"` instead. -/
theorem default_names (feature : Feature) (category venue_type : String)
    (h : feature.tags.lookup "name" = none)
    (hv : feature.tags.lookup "amenity" = some venue_type) :
    (placeInfoOf feature).name = "Unnamed" ∧
    (searchEntryOf category feature).name = "Unnamed" ∧
    (exploreEntryOf feature).name = "Unnamed" ∧
    matchingVenues venue_type [feature]
      = [{ id := feature.id, name := "Unnamed Venue", latitude := feature.lat,
           longitude := feature.lon, tags := feature.tags }] := by
  refine ⟨?_, ?_, ?_, ?_⟩ <;>
    simp [placeInfoOf, searchEntryOf, exploreEntryOf, matchingVenues, h, hv]

/-- Witness for the amended C8 at the nameless cafe. -/
theorem default_names_witness :
    namelessCafe.tags.lookup "name" = none ∧
    namelessCafe.tags.lookup "amenity" = some "cafe" ∧
    ((placeInfoOf namelessCafe).name = "Unnamed" ∧
      (searchEntryOf "amenity" namelessCafe).name = "Unnamed" ∧
      (exploreEntryOf namelessCafe).name = "Unnamed" ∧
      matchingVenues "cafe" [namelessCafe]
        = [{ id := namelessCafe.id, name := "Unnamed Venue", latitude := namelessCafe.lat,
             longitude := namelessCafe.lon, tags := namelessCafe.tags }]) :=
  ⟨by decide, by decide,
    default_names namelessCafe "amenity" "cafe" (by decide) (by decide)⟩

/-- C3 counterexample: at latitude 180 (accepted by the code, which validates
nothing), radius 111000 and longitude 0, `math.cos(math.radians(180)) = -1`
makes `lon_delta` negative, so `min_lon = 1 > 0 = longitude`: the claimed
`min_lon < longitude` fails although the radius is positive. -/
theorem bboxOfRadius_claim_false :
    (0 : ℝ) < 111000 ∧ ¬ (bboxOfRadius 180 0 111000).min_lon < 0 := by
  refine ⟨by norm_num, ?_⟩
  have hrad : (180 : ℝ) * Real.pi / 180 = Real.pi := by ring
  have hmin : (bboxOfRadius 180 0 111000).min_lon = 1 := by
    show (0 : ℝ) - 111000 / (111000 * Real.cos ((180 : ℝ) * Real.pi / 180)) = 1
    rw [hrad, Real.cos_pi]
    norm_num
  rw [hmin]
  norm_num

/-- C3 (amended): for every radius r > 0 and center, provided the cosine of
the latitude in radians is positive (in particular for latitudes strictly
between -90 and 90), the bounding box strictly contains the center and its
latitude span is exactly 2r/111000 (exact in the real-valued model in which
floating point is embedded). -/
theorem bboxOfRadius_correct (latitude longitude radius : ℝ) (hr : 0 < radius)
    (hcos : 0 < Real.cos (latitude * Real.pi / 180)) :
    (bboxOfRadius latitude longitude radius).min_lat < latitude ∧
    latitude < (bboxOfRadius latitude longitude radius).max_lat ∧
    (bboxOfRadius latitude longitude radius).min_lon < longitude ∧
    longitude < (bboxOfRadius latitude longitude radius).max_lon ∧
    (bboxOfRadius latitude longitude radius).max_lat
      - (bboxOfRadius latitude longitude radius).min_lat = 2 * radius / 111000 := by
  have hlatd : (0 : ℝ) < radius / 111000 := by positivity
  have hlond : (0 : ℝ) < radius / (111000 * Real.cos (latitude * Real.pi / 180)) := by
    positivity
  have e1 : (bboxOfRadius latitude longitude radius).min_lat
      = latitude - radius / 111000 := rfl
  have e2 : (bboxOfRadius latitude longitude radius).max_lat
      = latitude + radius / 111000 := rfl
  have e3 : (bboxOfRadius latitude longitude radius).min_lon
      = longitude - radius / (111000 * Real.cos (latitude * Real.pi / 180)) := rfl
  have e4 : (bboxOfRadius latitude longitude radius).max_lon
      = longitude + radius / (111000 * Real.cos (latitude * Real.pi / 180)) := rfl
  rw [e1, e2, e3, e4]
  refine ⟨by linarith, by linarith, by linarith, by linarith, by ring⟩

/-- Witness for the amended C3 at the equator with a 500 m radius. -/
theorem bboxOfRadius_correct_witness :
    (0 : ℝ) < 500 ∧ 0 < Real.cos ((0 : ℝ) * Real.pi / 180) ∧
    ((bboxOfRadius 0 0 500).min_lat < 0 ∧
      (0 : ℝ) < (bboxOfRadius 0 0 500).max_lat ∧
      (bboxOfRadius 0 0 500).min_lon < 0 ∧
      (0 : ℝ) < (bboxOfRadius 0 0 500).max_lon ∧
      (bboxOfRadius 0 0 500).max_lat - (bboxOfRadius 0 0 500).min_lat
        = 2 * 500 / 111000) := by
  have hc : (0 : ℝ) < Real.cos ((0 : ℝ) * Real.pi / 180) := by
    rw [show (0 : ℝ) * Real.pi / 180 = 0 from by ring, Real.cos_zero]
    norm_num
  exact ⟨by norm_num, hc, bboxOfRadius_correct 0 0 500 (by norm_num) hc⟩

/-- C9 counterexample: status 204 lies in the 2xx range, yet `geocode` raises
instead of returning the parsed body, because the code checks `status == 200`,
not the 2xx range. -/
theorem client_2xx_claim_false :
    ¬ (exceptOk (OSMClient.geocode true "x" (⟨204, ()⟩ : HttpResponse Unit)) = true
      ↔ (200 ≤ 204 ∧ 204 ≤ 299)) := by
  decide

/-- C9 (amended): each connected client operation returns the parsed body if
and only if the response status is exactly 200; on any other status it fails
with the error message carrying that status code. -/
theorem client_status_200 {β : Type} (query : String) (lat lon : ℚ)
    (resp : HttpResponse β) (respO : HttpResponse OverpassData)
    (respR : HttpResponse RouteData) :
    ((OSMClient.geocode true query resp = .ok resp.body ↔ resp.status = 200) ∧
      (resp.status ≠ 200 → OSMClient.geocode true query resp
        = .error ("Failed to geocode \x27" ++ query ++ "\x27: " ++ toString resp.status))) ∧
    ((OSMClient.reverse_geocode true lat lon resp = .ok resp.body ↔ resp.status = 200) ∧
      (resp.status ≠ 200 → OSMClient.reverse_geocode true lat lon resp
        = .error ("Failed to reverse geocode (" ++ toString lat ++ ", " ++ toString lon
          ++ "): " ++ toString resp.status))) ∧
    ((OSMClient.get_route true respR = .ok respR.body ↔ respR.status = 200) ∧
      (respR.status ≠ 200 → OSMClient.get_route true respR
        = .error ("Failed to get route: " ++ toString respR.status))) ∧
    ((OSMClient.get_nearby_pois true respO = .ok (respO.body.elements.getD [])
        ↔ respO.status = 200) ∧
      (respO.status ≠ 200 → OSMClient.get_nearby_pois true respO
        = .error ("Failed to get nearby POIs: " ++ toString respO.status))) ∧
    ((OSMClient.search_features_by_category true respO = .ok (respO.body.elements.getD [])
        ↔ respO.status = 200) ∧
      (respO.status ≠ 200 → OSMClient.search_features_by_category true respO
        = .error ("Failed to search features by category: "
          ++ toString respO.status))) := by
  refine ⟨⟨?_, ?_⟩, ⟨?_, ?_⟩, ⟨?_, ?_⟩, ⟨?_, ?_⟩, ⟨?_, ?_⟩⟩
  · by_cases h : resp.status = 200 <;> simp [OSMClient.geocode, h]
  · intro h
    simp [OSMClient.geocode, h]
  · by_cases h : resp.status = 200 <;> simp [OSMClient.reverse_geocode, h]
  · intro h
    simp [OSMClient.reverse_geocode, h]
  · by_cases h : respR.status = 200 <;> simp [OSMClient.get_route, h]
  · intro h
    simp [OSMClient.get_route, h]
  · by_cases h : respO.status = 200 <;> simp [OSMClient.get_nearby_pois, h]
  · intro h
    simp [OSMClient.get_nearby_pois, h]
  · by_cases h : respO.status = 200 <;> simp [OSMClient.search_features_by_category, h]
  · intro h
    simp [OSMClient.search_features_by_category, h]

/-- Witness for the amended C9: a 404 produces the error carrying the status,
a 200 produces the parsed body. -/
theorem client_status_200_witness :
    OSMClient.geocode true "q" (⟨404, ()⟩ : HttpResponse Unit)
      = .error ("Failed to geocode \x27q\x27: " ++ toString (404 : Nat)) ∧
    OSMClient.get_nearby_pois true ⟨200, ⟨none⟩⟩ = .ok [] := by
  have h := client_status_200 (β := Unit) "q" 0 0 ⟨404, ()⟩ ⟨200, ⟨none⟩⟩ ⟨404, none, none⟩
  exact ⟨h.1.2 (by norm_num), by simpa using h.2.2.2.1.1.mpr rfl⟩

/-- C10: a transportation mode outside `{car, bike, foot}` is replaced by
`"car"`: apart from one extra warning notification the run is identical to the
run with mode `"car"` -- in particular the invalid mode itself never makes the
call fail. -/
theorem get_route_directions_invalid_mode (env : RouteEnv)
    (from_latitude from_longitude to_latitude to_longitude : ℚ) (mode : String)
    (h : mode ∉ validModes) :
    (get_route_directions env from_latitude from_longitude to_latitude to_longitude mode).1
      = (get_route_directions env from_latitude from_longitude to_latitude to_longitude
          "car").1 ∧
    (get_route_directions env from_latitude from_longitude to_latitude to_longitude mode).2
      = Event.warning ("Invalid mode \x27" ++ mode ++ "\x27. Using \x27car\x27 instead.")
          :: (get_route_directions env from_latitude from_longitude to_latitude to_longitude
              "car").2 := by
  have hcar : "car" ∈ validModes := by decide
  constructor <;>
  · simp only [get_route_directions, h, hcar, if_neg, if_pos, ite_true, ite_false,
      not_false_eq_true, List.singleton_append]
    cases OSMClient.get_route true
        (env.route from_latitude from_longitude to_latitude to_longitude "car") with
    | error e => rfl
    | ok rd =>
      rcases hx : rd.routes with _ | (_ | ⟨r, t⟩) <;> simp [hx]

/-- Witness for C10 with the invalid mode `"plane"`. -/
theorem get_route_directions_invalid_mode_witness :
    "plane" ∉ validModes ∧
    ((get_route_directions envRouteDown 0 0 1 1 "plane").1
        = (get_route_directions envRouteDown 0 0 1 1 "car").1 ∧
      (get_route_directions envRouteDown 0 0 1 1 "plane").2
        = Event.warning ("Invalid mode \x27plane\x27. Using \x27car\x27 instead.")
            :: (get_route_directions envRouteDown 0 0 1 1 "car").2) :=
  ⟨by decide, get_route_directions_invalid_mode envRouteDown 0 0 1 1 "plane" (by decide)⟩
